import Mathlib

/-!
Verification of `_tools/modernize.py` (Mighty Cheese site modernizer).

The Python source is shallowly embedded over `List Char` (one entry per
Unicode code point, matching Python's `str` indexing).  Python regular
expressions are embedded by a small backtracking matcher (`matchSeq`)
specialized to the constructs the source actually uses: literals
(case-sensitive and case-insensitive), character-class repetition with
greedy backtracking, lazy `.*?` under `re.DOTALL`, optional characters,
literal alternation, `\b` word boundaries and the lookahead `(?=<h3|$)`.
`\s` and `\w` are modelled by their ASCII sets (the site corpus is ASCII;
Python additionally matches some non-ASCII whitespace/word characters).

Loops of the source that are `while` loops over a cursor are embedded with
an explicit fuel argument and return `Option`: `none` models a run that
does not finish within the given fuel.  Fuel sufficiency is proved where
the loop terminates (see the C1 theorem), and one genuine non-termination
of the source is exhibited (see the C3 theorem).
-/

/-- Convert a string literal to the `List Char` carrier used throughout. -/
def toL (s : String) : List Char := s.toList

/-- ASCII model of Python's `\s` (also used for `str.strip`). -/
def pyIsSpace (c : Char) : Bool :=
  c == ' ' || c == '\t' || c == '\n' || c == '\r' || c == Char.ofNat 11 || c == Char.ofNat 12

/-- ASCII model of Python's `\w` (word character), used for `\b`. -/
def pyIsWord (c : Char) : Bool := c.isAlphanum || c == '_'

/-- Model of Python's `str.lower` (ASCII). -/
def pyLower (l : List Char) : List Char := l.map Char.toLower

/-- Model of Python's `str.strip()` (strip leading/trailing whitespace). -/
def pyStrip (l : List Char) : List Char :=
  ((l.dropWhile pyIsSpace).reverse.dropWhile pyIsSpace).reverse

/-- Length of the longest prefix of `l` whose characters satisfy `p`. -/
def countWhile (p : Char → Bool) (l : List Char) : Nat := (l.takeWhile p).length

/-- Search step for `sFind`: try positions `i`, `i+1`, ... (`fuel` many). -/
def findAux (sub s : List Char) : Nat → Nat → Option Nat
  | _, 0 => none
  | i, fuel + 1 => if sub.isPrefixOf (s.drop i) then some i else findAux sub s (i + 1) fuel

/-- Model of Python's `str.find(sub, start)` (`none` for `-1`): the least
`i ≥ start` such that `sub` occurs at `i`, trying `start`, ..., `s.length`. -/
def sFind (sub s : List Char) (start : Nat) : Option Nat :=
  findAux sub s start (s.length + 1 - start)

/-- Number of positions of `s` at which `sub` occurs (occurrence count). -/
def countOccur (sub s : List Char) : Nat :=
  ((List.range (s.length + 1)).filter (fun i => sub.isPrefixOf (s.drop i))).length

/-- Model of Python's `sep.join(items)`. -/
def joinSep (sep : List Char) : List (List Char) → List Char
  | [] => []
  | [x] => x
  | x :: y :: t => x ++ sep ++ joinSep sep (y :: t)

/-- One element of an embedded regular expression.  Each constructor models
one construct appearing in the source's patterns. -/
inductive Pat where
  /-- literal text -/
  | lit : List Char → Pat
  /-- literal text under `re.IGNORECASE` -/
  | litci : List Char → Pat
  /-- alternation of literals `(?:a|b)`, first alternative preferred -/
  | alts : List (List Char) → Pat
  /-- greedy unbounded repetition of a character class, with a minimum
  count (`[..]*`, `[..]+`, `\s*`, `\s+`, `\n{3,}`); `cap` marks a capturing
  group around the repetition -/
  | cls : (Char → Bool) → Nat → Bool → Pat
  /-- lazy unbounded repetition of a character class (`(.*?)` under
  `re.DOTALL` with the always-true class) -/
  | lazyStar : (Char → Bool) → Bool → Pat
  /-- greedy optional single character (`/?`) -/
  | opt : Char → Pat
  /-- Word boundary `\b` word boundary -/
  | wb : Pat
  /-- lookahead `(?=lit|$)`, with Python's `$` (end, or just before a final
  newline) -/
  | aheadLitOrEnd : List Char → Pat

/-- Word-character test on an optional character (out of range = not word). -/
def optWord : Option Char → Bool
  | some c => pyIsWord c
  | none => false

/-- Backtracking matcher for a sequence of pattern elements, anchored at
position `pos` of `s`.  Returns the end position of the match and the list
of captured groups in pattern order.  Backtracking priority follows
Python's `re`: greedy repetitions try longest first, lazy ones shortest
first, alternatives left to right. -/
def matchSeq : List Pat → List Char → Nat → Option (Nat × List (List Char))
  | [], _, pos => some (pos, [])
  | Pat.lit t :: ps, s, pos =>
      if t.isPrefixOf (s.drop pos) then matchSeq ps s (pos + t.length) else none
  | Pat.litci t :: ps, s, pos =>
      if ((s.drop pos).take t.length).map Char.toLower == t.map Char.toLower then
        matchSeq ps s (pos + t.length)
      else none
  | Pat.alts ts :: ps, s, pos =>
      ts.findSome? (fun t =>
        if t.isPrefixOf (s.drop pos) then matchSeq ps s (pos + t.length) else none)
  | Pat.cls p mn cap :: ps, s, pos =>
      let mx := countWhile p (s.drop pos)
      (List.range (mx + 1 - mn)).findSome? (fun j =>
        (matchSeq ps s (pos + (mx - j))).map (fun r =>
          (r.1, if cap then ((s.drop pos).take (mx - j)) :: r.2 else r.2)))
  | Pat.lazyStar p cap :: ps, s, pos =>
      let mx := countWhile p (s.drop pos)
      (List.range (mx + 1)).findSome? (fun k =>
        (matchSeq ps s (pos + k)).map (fun r =>
          (r.1, if cap then ((s.drop pos).take k) :: r.2 else r.2)))
  | Pat.opt c :: ps, s, pos =>
      if s[pos]? == some c then
        match matchSeq ps s (pos + 1) with
        | some r => some r
        | none => matchSeq ps s pos
      else matchSeq ps s pos
  | Pat.wb :: ps, s, pos =>
      let prev := match pos with
        | 0 => false
        | q + 1 => optWord s[q]?
      if prev != optWord s[pos]? then matchSeq ps s pos else none
  | Pat.aheadLitOrEnd t :: ps, s, pos =>
      if t.isPrefixOf (s.drop pos) || s.length == pos ||
          (s.length == pos + 1 && s[pos]? == some '\n') then
        matchSeq ps s pos
      else none

/-- Leftmost-match search (`re.search`): try `pos`, `pos+1`, ...  The fuel
counts the remaining start positions to try after the current one. -/
def reFirstAux (pats : List Pat) (s : List Char) : Nat → Nat → Option (Nat × Nat × List (List Char))
  | 0, pos => (matchSeq pats s pos).map (fun r => (pos, r.1, r.2))
  | fuel + 1, pos =>
      match matchSeq pats s pos with
      | some r => some (pos, r.1, r.2)
      | none => reFirstAux pats s fuel (pos + 1)

/-- Leftmost match of `pats` in `s` at a position `≥ start`: start position,
end position and captures. -/
def reFirst (pats : List Pat) (s : List Char) (start : Nat) : Option (Nat × Nat × List (List Char)) :=
  reFirstAux pats s (s.length - start) start

/-- Model of `re.sub` with a replacement function of the captures: replace
every non-overlapping leftmost match, scanning left to right. -/
def reSubAux (pats : List Pat) (repl : List (List Char) → List Char) (s : List Char) :
    Nat → Nat → List Char
  | 0, pos => s.drop pos
  | fuel + 1, pos =>
      match reFirst pats s pos with
      | none => s.drop pos
      | some (m, e, caps) =>
          (s.drop pos).take (m - pos) ++ repl caps ++
            (if e ≤ m then (s.drop m).take 1 else []) ++
            reSubAux pats repl s fuel (max e (m + 1))

/-- Model of `re.sub(pattern, repl, s)` with `repl` a function of the captures. -/
def reSub (pats : List Pat) (repl : List (List Char) → List Char) (s : List Char) : List Char :=
  reSubAux pats repl s (s.length + 1) 0

/-- Scan step for `re.findall`/`re.finditer`: collect captures of all
non-overlapping matches, left to right. -/
def reFindAllAux (pats : List Pat) (s : List Char) : Nat → Nat → List (List (List Char))
  | 0, _ => []
  | fuel + 1, pos =>
      match reFirst pats s pos with
      | none => []
      | some (m, e, caps) => caps :: reFindAllAux pats s fuel (max e (m + 1))

/-- Capture lists of all matches of `pats` in `s` (`re.findall`). -/
def reFindAll (pats : List Pat) (s : List Char) : List (List (List Char)) :=
  reFindAllAux pats s (s.length + 1) 0

/-! ## Embedded patterns of `modernize.py` -/

/-- Always-true class, the `.` of a `DOTALL` pattern. -/
def anyC : Char → Bool := fun _ => true

/-- Class `[^"]`. -/
def nonQuote : Char → Bool := fun c => !(c == '"')

/-- Class `[^>]`. -/
def nonGt : Char → Bool := fun c => !(c == '>')

/-- Pattern `<title[^>]*>(.*?)</title>` with `re.DOTALL | re.IGNORECASE`. -/
def patTitle : List Pat :=
  [Pat.litci (toL "<title"), Pat.cls nonGt 0 false, Pat.lit (toL ">"),
   Pat.lazyStar anyC true, Pat.litci (toL "</title>")]

/-- Pattern `<div\s+id="main-content"[^>]*>` with `re.IGNORECASE`. -/
def patMainContent : List Pat :=
  [Pat.litci (toL "<div"), Pat.cls pyIsSpace 1 false, Pat.litci (toL "id=\"main-content\""),
   Pat.cls nonGt 0 false, Pat.lit (toL ">")]

/-- Pattern `<div\s+id="index"\s+class="(?:general|photogrid)-index">`. -/
def patIndex : List Pat :=
  [Pat.lit (toL "<div"), Pat.cls pyIsSpace 1 false, Pat.lit (toL "id=\"index\""),
   Pat.cls pyIsSpace 1 false, Pat.lit (toL "class=\""),
   Pat.alts [toL "general", toL "photogrid"], Pat.lit (toL "-index\">")]

/-- Pattern `^\s*<!--[^>]*-->` (anchored comment after the index container). -/
def patIdxComment : List Pat :=
  [Pat.cls pyIsSpace 0 false, Pat.lit (toL "<!--"), Pat.cls nonGt 0 false, Pat.lit (toL "-->")]

/-- Pattern `<a\s+href="([^"]+)">\s*<img[^>]*\bsrc="([^"]+)"[^>]*\balt="([^"]*)"[^>]*/?\s*>\s*</a>`
with `re.DOTALL` (gallery thumbnails). -/
def patThumb : List Pat :=
  [Pat.lit (toL "<a"), Pat.cls pyIsSpace 1 false, Pat.lit (toL "href=\""),
   Pat.cls nonQuote 1 true, Pat.lit (toL "\">"), Pat.cls pyIsSpace 0 false,
   Pat.lit (toL "<img"), Pat.cls nonGt 0 false, Pat.wb, Pat.lit (toL "src=\""),
   Pat.cls nonQuote 1 true, Pat.lit (toL "\""), Pat.cls nonGt 0 false, Pat.wb,
   Pat.lit (toL "alt=\""), Pat.cls nonQuote 0 true, Pat.lit (toL "\""),
   Pat.cls nonGt 0 false, Pat.opt '/', Pat.cls pyIsSpace 0 false, Pat.lit (toL ">"),
   Pat.cls pyIsSpace 0 false, Pat.lit (toL "</a>")]

/-- Pattern `<h3[^>]*><a\s+href="([^"]+)">(.*?)</a></h3>(.*?)(?=<h3|$)` with
`re.DOTALL` (text-index entries). -/
def patEntry : List Pat :=
  [Pat.lit (toL "<h3"), Pat.cls nonGt 0 false, Pat.lit (toL "><a"),
   Pat.cls pyIsSpace 1 false, Pat.lit (toL "href=\""), Pat.cls nonQuote 1 true,
   Pat.lit (toL "\">"), Pat.lazyStar anyC true, Pat.lit (toL "</a></h3>"),
   Pat.lazyStar anyC true, Pat.aheadLitOrEnd (toL "<h3")]

/-- Pattern `<[^>]+>` (tag stripper for titles). -/
def patTag : List Pat :=
  [Pat.lit (toL "<"), Pat.cls nonGt 1 false, Pat.lit (toL ">")]

/-- Pattern `class="article-summary"[^>]*>(.*?)</div>` with `re.DOTALL`. -/
def patSummary : List Pat :=
  [Pat.lit (toL "class=\"article-summary\""), Pat.cls nonGt 0 false, Pat.lit (toL ">"),
   Pat.lazyStar anyC true, Pat.lit (toL "</div>")]

/-- Pattern `<div\s+id="main-(?:top|bottom)">\s*</div>`. -/
def patMainTB : List Pat :=
  [Pat.lit (toL "<div"), Pat.cls pyIsSpace 1 false, Pat.lit (toL "id=\"main-"),
   Pat.alts [toL "top", toL "bottom"], Pat.lit (toL "\">"), Pat.cls pyIsSpace 0 false,
   Pat.lit (toL "</div>")]

/-- Pattern `<!--.*?-->` with `re.DOTALL` (all HTML comments). -/
def patComment : List Pat :=
  [Pat.lit (toL "<!--"), Pat.lazyStar anyC false, Pat.lit (toL "-->")]

/-- Pattern `\s+id="k-[^"]*"` (legacy ids). -/
def patKId : List Pat :=
  [Pat.cls pyIsSpace 1 false, Pat.lit (toL "id=\"k-"), Pat.cls nonQuote 0 false,
   Pat.lit (toL "\"")]

/-- Pattern `<span\s+class="in">(.*?)</span>` with `re.DOTALL`. -/
def patSpanIn : List Pat :=
  [Pat.lit (toL "<span"), Pat.cls pyIsSpace 1 false, Pat.lit (toL "class=\"in\">"),
   Pat.lazyStar anyC true, Pat.lit (toL "</span>")]

/-- Pattern `\s+style="[^"]*"`. -/
def patStyle : List Pat :=
  [Pat.cls pyIsSpace 1 false, Pat.lit (toL "style=\""), Pat.cls nonQuote 0 false,
   Pat.lit (toL "\"")]

/-- Pattern `<br\s+class="webkit-block-placeholder"\s*/?>`. -/
def patBrWk : List Pat :=
  [Pat.lit (toL "<br"), Pat.cls pyIsSpace 1 false,
   Pat.lit (toL "class=\"webkit-block-placeholder\""), Pat.cls pyIsSpace 0 false,
   Pat.opt '/', Pat.lit (toL ">")]

/-- Pattern `<div\s+class="CLS">\s*</div>` for a fixed class `CLS` (several rules). -/
def patEmptyDiv (cls : String) : List Pat :=
  [Pat.lit (toL "<div"), Pat.cls pyIsSpace 1 false,
   Pat.lit (toL ("class=\"" ++ cls ++ "\">")), Pat.cls pyIsSpace 0 false,
   Pat.lit (toL "</div>")]

/-- Pattern `<p>\s*<br\s*/?>\s*</p>`. -/
def patPBr : List Pat :=
  [Pat.lit (toL "<p>"), Pat.cls pyIsSpace 0 false, Pat.lit (toL "<br"),
   Pat.cls pyIsSpace 0 false, Pat.opt '/', Pat.lit (toL ">"), Pat.cls pyIsSpace 0 false,
   Pat.lit (toL "</p>")]

/-- Pattern `<div>\s*<br\s*/?>\s*</div>`. -/
def patDivBr : List Pat :=
  [Pat.lit (toL "<div>"), Pat.cls pyIsSpace 0 false, Pat.lit (toL "<br"),
   Pat.cls pyIsSpace 0 false, Pat.opt '/', Pat.lit (toL ">"), Pat.cls pyIsSpace 0 false,
   Pat.lit (toL "</div>")]

/-- Pattern `<i>\s*</i>`. -/
def patIEmpty : List Pat :=
  [Pat.lit (toL "<i>"), Pat.cls pyIsSpace 0 false, Pat.lit (toL "</i>")]

/-- Pattern `<div\s+class="RichTextElement">\s*<div>(.*?)</div>\s*</div>` with `re.DOTALL`. -/
def patRTE1 : List Pat :=
  [Pat.lit (toL "<div"), Pat.cls pyIsSpace 1 false, Pat.lit (toL "class=\"RichTextElement\">"),
   Pat.cls pyIsSpace 0 false, Pat.lit (toL "<div>"), Pat.lazyStar anyC true,
   Pat.lit (toL "</div>"), Pat.cls pyIsSpace 0 false, Pat.lit (toL "</div>")]

/-- Pattern `<div(?:\s+class="RichTextElement")>\s*(.*?)\s*</div>` with `re.DOTALL`. -/
def patRTE2 : List Pat :=
  [Pat.lit (toL "<div"), Pat.cls pyIsSpace 1 false, Pat.lit (toL "class=\"RichTextElement\">"),
   Pat.cls pyIsSpace 0 false, Pat.lazyStar anyC true, Pat.cls pyIsSpace 0 false,
   Pat.lit (toL "</div>")]

/-- Pattern `<div\s+class="article-content">\s*`. -/
def patArticleContent : List Pat :=
  [Pat.lit (toL "<div"), Pat.cls pyIsSpace 1 false, Pat.lit (toL "class=\"article-content\">"),
   Pat.cls pyIsSpace 0 false]

/-- Pattern `<div\s+class="article-info">\s*<div\s+class="timestamp">\s*(.*?)\s*</div>\s*</div>`
with `re.DOTALL`. -/
def patTimestamp : List Pat :=
  [Pat.lit (toL "<div"), Pat.cls pyIsSpace 1 false, Pat.lit (toL "class=\"article-info\">"),
   Pat.cls pyIsSpace 0 false, Pat.lit (toL "<div"), Pat.cls pyIsSpace 1 false,
   Pat.lit (toL "class=\"timestamp\">"), Pat.cls pyIsSpace 0 false,
   Pat.lazyStar anyC true, Pat.cls pyIsSpace 0 false, Pat.lit (toL "</div>"),
   Pat.cls pyIsSpace 0 false, Pat.lit (toL "</div>")]

/-- Pattern `<div\s+class="article[^"]*">\s*`. -/
def patArticleAny : List Pat :=
  [Pat.lit (toL "<div"), Pat.cls pyIsSpace 1 false, Pat.lit (toL "class=\"article"),
   Pat.cls nonQuote 0 false, Pat.lit (toL "\">"), Pat.cls pyIsSpace 0 false]

/-- Pattern `<div\s+class="pagelet[^"]*">`. -/
def patPagelet : List Pat :=
  [Pat.lit (toL "<div"), Pat.cls pyIsSpace 1 false, Pat.lit (toL "class=\"pagelet"),
   Pat.cls nonQuote 0 false, Pat.lit (toL "\">")]

/-- Pattern `<div\s+class="CLS">` for a fixed class `CLS` (unwrap rules). -/
def patOpenDiv (cls : String) : List Pat :=
  [Pat.lit (toL "<div"), Pat.cls pyIsSpace 1 false, Pat.lit (toL ("class=\"" ++ cls ++ "\">"))]

/-- Pattern `<div\s+class="callout-container">\s*(.*?)\s*</div>` with `re.DOTALL`. -/
def patCalloutFull : List Pat :=
  [Pat.lit (toL "<div"), Pat.cls pyIsSpace 1 false, Pat.lit (toL "class=\"callout-container\">"),
   Pat.cls pyIsSpace 0 false, Pat.lazyStar anyC true, Pat.cls pyIsSpace 0 false,
   Pat.lit (toL "</div>")]

/-- Pattern `\n{3,}`. -/
def patNl3 : List Pat := [Pat.cls (fun c => c == '\n') 3 false]

/-- Pattern `[ \t]+\n`. -/
def patSpaceNl : List Pat :=
  [Pat.cls (fun c => c == ' ' || c == '\t') 1 false, Pat.lit (toL "\n")]

/-! ## Embedded functions of `modernize.py` -/

/-- The `NAV_ITEMS` (label, target) pairs. -/
def NAV_ITEMS : List (List Char × List Char) :=
  [(toL "Home", toL "index.html"), (toL "What", toL "what.html"),
   (toL "Who", toL "who.html"), (toL "Why", toL "why.html"),
   (toL "Headaches", toL "headaches/"), (toL "Pawlet Box", toL "pog/the_pawlet_box/")]

/-- Function `relative_root`: a document's path below the site root is modelled by
its list of path components (directories, then the file name), so that
`depth = len(rel.parts) - 1`.  Returns `'../' * depth` (empty at depth 0). -/
def relative_root (parts : List (List Char)) : List Char :=
  let depth := parts.length - 1
  if depth = 0 then [] else List.flatten (List.replicate depth (toL "../"))

/-- The string form of a relative path (components joined by `/`),
as used by `get_active_nav`. -/
def relString (parts : List (List Char)) : List Char := joinSep (toL "/") parts

/-- Function `get_active_nav`. -/
def get_active_nav (parts : List (List Char)) : List Char :=
  let rel := relString parts
  if rel == toL "index.html" then toL "index.html"
  else if (toL "what").isPrefixOf rel then toL "what.html"
  else if (toL "who").isPrefixOf rel then toL "who.html"
  else if (toL "why").isPrefixOf rel then toL "why.html"
  else if (toL "headaches/").isPrefixOf rel || (toL "migraines/").isPrefixOf rel ||
      (toL "damage/").isPrefixOf rel then toL "headaches/"
  else if (toL "pog/").isPrefixOf rel then toL "pog/the_pawlet_box/"
  else []

/-- Function `extract_title`: first `<title>` body, stripped, part before the first
`|`, stripped (Python's `raw.split('|')` always has a first part, so the
`if parts else` fallback never triggers). -/
def extract_title (html : List Char) : List Char :=
  match reFirst patTitle html 0 with
  | none => toL "Mighty Cheese"
  | some (_, _, caps) =>
      pyStrip ((pyStrip (caps.getD 0 [])).takeWhile (fun c => !(c == '|')))

/-- The `'<div'` needle of `extract_div_content`. -/
def openTok : List Char := toL "<div"

/-- The `'</div>'` needle of `extract_div_content`. -/
def closeTok : List Char := toL "</div>"

/-- The `while depth > 0 and pos < len(html)` loop of `extract_div_content`,
with fuel.  Returns the pair `(innerHTML, position after the closing tag)`
exactly as the source does; `none` means the fuel ran out. -/
def edcLoopF (html : List Char) (startPos : Nat) (fuel : Nat) (depth pos : Nat) :
    Option (List Char × Nat) :=
  if depth = 0 ∨ html.length ≤ pos then some (html.drop startPos, html.length)
  else
    match fuel with
    | 0 => none
    | fuel' + 1 =>
      match sFind openTok html pos, sFind closeTok html pos with
      | _, none => some (html.drop startPos, html.length)
      | some no, some nc =>
          if no < nc then edcLoopF html startPos fuel' (depth + 1) (no + 4)
          else if depth - 1 = 0 then
            some ((html.drop startPos).take (nc - startPos), nc + 6)
          else edcLoopF html startPos fuel' (depth - 1) (nc + 6)
      | none, some nc =>
          if depth - 1 = 0 then
            some ((html.drop startPos).take (nc - startPos), nc + 6)
          else edcLoopF html startPos fuel' (depth - 1) (nc + 6)

/-- Function `extract_div_content(html, start_pos)`.  The fuel `html.length + 1` is
proved sufficient (the loop's cursor strictly advances), see the C1 theorem. -/
def extract_div_content (html : List Char) (startPos : Nat) : Option (List Char × Nat) :=
  edcLoopF html startPos (html.length + 1) 1 startPos

/-- Function `extract_main_content`. -/
def extract_main_content (html : List Char) : List Char :=
  match reFirst patMainContent html 0 with
  | none => []
  | some (_, e, _) =>
      match extract_div_content html e with
      | some r => r.1
      | none => []

/-- The anchored `re.sub(r'^\s*<!--[^>]*-->', '', rest)` of
`extract_index_section` (a `^`-anchored pattern replaces at most the one
match at position 0). -/
def stripLeadingComment (rest : List Char) : List Char :=
  match matchSeq patIdxComment rest 0 with
  | some r => rest.drop r.1
  | none => rest

/-- Function `extract_index_section`: split content into (before, index inner, after). -/
def extract_index_section (content : List Char) : List Char × List Char × List Char :=
  match reFirst patIndex content 0 with
  | none => (content, [], [])
  | some (m, e, _) =>
      let r := (extract_div_content content e).getD (content.drop e, content.length)
      (content.take m, r.1, stripLeadingComment (content.drop r.2))

/-- One gallery item of `transform_gallery_index` (captures href, src, alt). -/
def mkGridItem (g : List (List Char)) : List Char :=
  toL "<div class=\"gallery-item\"><a href=\"" ++ g.getD 0 [] ++
    toL "\"><img src=\"" ++ g.getD 1 [] ++ toL "\" alt=\"" ++ g.getD 2 [] ++
    toL "\" loading=\"lazy\" /></a></div>"

/-- Strip all `<...>` tags: `re.sub(r'<[^>]+>', '', t)`. -/
def stripTags (t : List Char) : List Char := reSub patTag (fun _ => []) t

/-- One text-index item of `transform_gallery_index` (captures href,
title html, trailing markup). -/
def mkListItem (g : List (List Char)) : List Char :=
  let href := g.getD 0 []
  let title := pyStrip (stripTags (g.getD 1 []))
  let summary := match reFirst patSummary (g.getD 2 []) 0 with
    | some (_, _, cs) => pyStrip (cs.getD 0 [])
    | none => []
  toL "<li><a href=\"" ++ href ++ toL "\">" ++ title ++ toL "</a>" ++
    (if summary.isEmpty then [] else toL "\n<div class=\"summary\">" ++ summary ++ toL "</div>") ++
    toL "</li>"

/-- Function `transform_gallery_index`. -/
def transform_gallery_index (idx_inner : List Char) : List Char :=
  let thumbnails := reFindAll patThumb idx_inner
  if thumbnails.isEmpty then
    let entries := reFindAll patEntry idx_inner
    if entries.isEmpty then []
    else
      toL "<ul class=\"index-list\">\n" ++
        joinSep (toL "\n") (entries.map mkListItem) ++ toL "\n</ul>"
  else
    toL "<div class=\"gallery-grid\">\n" ++
      joinSep (toL "\n") (thumbnails.map mkGridItem) ++ toL "\n</div>"

/-- Model of `re.match(r'<div[\s>]', html[pos:])` of `balance_divs`. -/
def openMatchAt (html : List Char) (pos : Nat) : Bool :=
  openTok.isPrefixOf (html.drop pos) &&
    (match html[pos + 4]? with
     | some c => pyIsSpace c || c == '>'
     | none => false)

/-- Model of `re.match(r'</div\s*>', html[pos:])` of `balance_divs`: length of the
match when it succeeds (`</div` + whitespace + `>`). -/
def closeMatchLen (html : List Char) (pos : Nat) : Option Nat :=
  if (toL "</div").isPrefixOf (html.drop pos) then
    let k := countWhile pyIsSpace (html.drop (pos + 5))
    if html[pos + 5 + k]? == some '>' then some (5 + k + 1) else none
  else none

/-- The `while pos < len(html)` loop of `balance_divs`, with fuel.  The
accumulator is the `result` list of appended pieces (joined at the end, as
in the source); `none` means the fuel ran out — which happens exactly when
the source loop does not terminate (see the C3 theorem). -/
def balLoopF (html : List Char) : Nat → Nat → Nat → List (List Char) → Option (List (List Char))
  | fuel, pos, depth, acc =>
    if html.length ≤ pos then some acc
    else
      match fuel with
      | 0 => none
      | fuel' + 1 =>
        if openMatchAt html pos then
          let endp := match sFind (toL ">") html pos with
            | some j => j + 1
            | none => 0
          balLoopF html fuel' endp (depth + 1) (acc ++ [(html.drop pos).take (endp - pos)])
        else
          match closeMatchLen html pos with
          | some ln =>
              if 0 < depth then
                balLoopF html fuel' (pos + ln) (depth - 1) (acc ++ [(html.drop pos).take ln])
              else balLoopF html fuel' (pos + ln) depth acc
          | none => balLoopF html fuel' (pos + 1) depth (acc ++ [(html.drop pos).take 1])

/-- Function `balance_divs`: remove excess closing `</div>` tags.  Fuel
`html.length + 1` suffices whenever the source loop terminates, since every
step other than the cursor-reset of an unterminated `<div` opener strictly
advances the cursor. -/
def balance_divs (html : List Char) : Option (List Char) :=
  (balLoopF html (html.length + 1) 0 0 []).map List.flatten

/-- Function `clean_content`: the ordered substitution pipeline, then rebalancing,
then whitespace normalization and strip.  `none` only when the rebalancing
loop would not terminate. -/
def clean_content (content : List Char) : Option (List Char) :=
  let c01 := reSub patMainTB (fun _ => []) content
  let c02 := reSub patComment (fun _ => []) c01
  let c03 := reSub patKId (fun _ => []) c02
  let spanIn := fun s => reSub patSpanIn (fun g => g.getD 0 []) s
  let c04 := spanIn (spanIn (spanIn c03))
  let c05 := reSub patStyle (fun _ => []) c04
  let c06 := reSub patBrWk (fun _ => toL "<br />") c05
  let c07 := reSub (patEmptyDiv "callout-container") (fun _ => []) c06
  let c08 := reSub (patEmptyDiv "article-info") (fun _ => []) c07
  let c09 := reSub (patEmptyDiv "clear") (fun _ => []) c08
  let c10 := reSub (patEmptyDiv "article-summary") (fun _ => []) c09
  let c11 := reSub patPBr (fun _ => []) c10
  let c12 := reSub patDivBr (fun _ => []) c11
  let c13 := reSub patIEmpty (fun _ => []) c12
  let c14 := reSub (patEmptyDiv "caption") (fun _ => []) c13
  let c15 := reSub patRTE1 (fun g => g.getD 0 []) c14
  let c16 := reSub patRTE2 (fun g => g.getD 0 []) c15
  let c17 := reSub patArticleContent (fun _ => []) c16
  let c18 := reSub patTimestamp
    (fun g => toL "<p class=\"timestamp\">" ++ g.getD 0 [] ++ toL "</p>") c17
  let c19 := reSub patArticleAny (fun _ => []) c18
  let c20 := reSub (patEmptyDiv "callout-top") (fun _ => []) c19
  let c21 := reSub (patEmptyDiv "callout-bottom") (fun _ => []) c20
  let c22 := reSub patPagelet (fun _ => []) c21
  let c23 := reSub (patOpenDiv "pagelet-body") (fun _ => []) c22
  let c24 := reSub (patOpenDiv "elementIntroduction") (fun _ => []) c23
  let c25 := reSub (patOpenDiv "callout") (fun _ => []) c24
  let c26 := reSub patCalloutFull
    (fun g =>
      let inner := g.getD 0 []
      if (pyStrip inner).isEmpty then []
      else toL "<div class=\"callout-content\">" ++ inner ++ toL "</div>") c25
  (balance_divs c26).map (fun b =>
    pyStrip (reSub patSpaceNl (fun _ => toL "\n")
      (reSub patNl3 (fun _ => toL "\n\n") b)))

/-- One list item of `build_nav`. -/
def navLine (rootPfx active : List Char) (item : List Char × List Char) : List Char :=
  toL "          <li" ++
    (if item.2 == active then toL " class=\"active\"" else []) ++
    toL "><a href=\"" ++ rootPfx ++ item.2 ++ toL "\">" ++ item.1 ++ toL "</a></li>"

/-- Function `build_nav`: navigation list items joined by newlines. -/
def build_nav (rootPfx active : List Char) : List Char :=
  joinSep (toL "\n") (NAV_ITEMS.map (navLine rootPfx active))

/-- Piece of the `make_page` template, up to the `{title}` slot. -/
def tpl1 : List Char :=
  toL "<!DOCTYPE html>\n<html lang=\"en\">\n<head>\n  <meta charset=\"UTF-8\" />\n  <meta name=\"viewport\" content=\"width=device-width, initial-scale=1.0\" />\n  <title>"

/-- Piece of the `make_page` template, between `{title}` and `{css_path}`. -/
def tpl2 : List Char :=
  toL " | Mighty Cheese</title>\n  <meta name=\"author\" content=\"Colin Summers\" />\n  <link rel=\"stylesheet\" href=\""

/-- Piece of the `make_page` template, between `{css_path}` and the brand href slot. -/
def tpl3 : List Char :=
  toL "\" />\n</head>\n<body>\n  <nav class=\"navbar\">\n    <div class=\"navbar-inner\">\n      <a class=\"navbar-brand\" href=\""

/-- Piece of the `make_page` template, between the brand href slot and `{nav_html}`. -/
def tpl4 : List Char :=
  toL "\">Mighty Cheese</a>\n      <input type=\"checkbox\" id=\"nav-toggle\" class=\"nav-toggle\" />\n      <label for=\"nav-toggle\" class=\"nav-toggle-label\"><span></span></label>\n      <ul class=\"nav-links\">\n"

/-- Piece of the `make_page` template, between `{nav_html}` and `{content}`. -/
def tpl5 : List Char :=
  toL "\n      </ul>\n    </div>\n  </nav>\n  <main>\n"

/-- Piece of the `make_page` template, after `{content}`. -/
def tpl6 : List Char :=
  toL "\n  </main>\n  <footer>\n    <p>Copyright Colin Summers 2006 and other years.</p>\n  </footer>\n</body>\n</html>\n"

/-- Function `make_page(title, nav_html, content, root_prefix)`: the f-string is the
concatenation of its literal pieces and slot values, with
`css_path = root_prefix + 'style.css'` and the brand href
`root_prefix or './'`. -/
def make_page (title nav_html content rootPfx : List Char) : List Char :=
  tpl1 ++ title ++ tpl2 ++ (rootPfx ++ toL "style.css") ++ tpl3 ++
    (if rootPfx.isEmpty then toL "./" else rootPfx) ++ tpl4 ++ nav_html ++ tpl5 ++
    content ++ tpl6

/-- The "already modernized" detector of `main`:
`'<!DOCTYPE html>' in sample[:50] and 'navbar' in sample[:500]`. -/
def alreadyModernized (sample : List Char) : Bool :=
  (sFind (toL "<!DOCTYPE html>") (sample.take 50) 0).isSome &&
    (sFind (toL "navbar") (sample.take 500) 0).isSome

/-- Function `process_file(file_path, original_html)`: `none` models `return False`
(the file is not written, its content unchanged); `some output` models
writing `output` and returning `True`.  The document path is modelled by
its components below the site root, as for `relative_root`. -/
def process_file (parts : List (List Char)) (html : List Char) : Option (List Char) :=
  if !((sFind (toL "sandvox") (pyLower html) 0).isSome) &&
      !((sFind (toL "main-content") html 0).isSome) then none
  else
    let mainContent := extract_main_content html
    if mainContent.isEmpty then none
    else
      let t := extract_index_section mainContent
      let content := if t.2.1.isEmpty then mainContent
        else t.1 ++ toL "\n" ++ transform_gallery_index t.2.1 ++ toL "\n" ++ t.2.2
      (clean_content content).map (fun cleaned =>
        make_page (extract_title html)
          (build_nav (relative_root parts) (get_active_nav parts))
          cleaned (relative_root parts))

/-! ## Generic lemmas about the helpers -/

/-- Bridge between the executable `isPrefixOf` and the prefix relation. -/
theorem isPrefixOf_eq_true_iff {l₁ l₂ : List Char} : l₁.isPrefixOf l₂ = true ↔ l₁ <+: l₂ := by
  simp

/-- A successful `findAux` found an occurrence at or after its start. -/
theorem findAux_some {sub s : List Char} :
    ∀ {fuel i j : Nat}, findAux sub s i fuel = some j →
      i ≤ j ∧ sub.isPrefixOf (s.drop j) = true := by
  intro fuel
  induction fuel with
  | zero => intro i j h; simp [findAux] at h
  | succ fuel ih =>
    intro i j h
    rw [findAux] at h
    by_cases hp : sub.isPrefixOf (s.drop i) = true
    · rw [if_pos hp] at h
      cases h
      exact ⟨Nat.le_refl _, hp⟩
    · rw [if_neg hp] at h
      have := ih h
      exact ⟨Nat.le_trans (Nat.le_succ i) this.1, this.2⟩

/-- A successful `sFind` found an occurrence at or after its start. -/
theorem sFind_some {sub s : List Char} {start j : Nat} (h : sFind sub s start = some j) :
    start ≤ j ∧ sub.isPrefixOf (s.drop j) = true :=
  findAux_some h

/-- A failing `findAux` saw no occurrence at any position it tried. -/
theorem findAux_none {sub s : List Char} :
    ∀ {fuel i : Nat}, findAux sub s i fuel = none →
      ∀ k, k < fuel → sub.isPrefixOf (s.drop (i + k)) = false := by
  intro fuel
  induction fuel with
  | zero => intro i _ k hk; omega
  | succ fuel ih =>
    intro i h k hk
    rw [findAux] at h
    by_cases hp : sub.isPrefixOf (s.drop i) = true
    · rw [if_pos hp] at h; cases h
    · rw [if_neg hp] at h
      match k with
      | 0 => rw [Nat.add_zero]; exact Bool.eq_false_iff.mpr hp
      | k' + 1 =>
        have := ih h k' (by omega)
        have harg : i + 1 + k' = i + (k' + 1) := by omega
        rw [harg] at this
        exact this

/-- A failing `sFind` from 0 saw no occurrence anywhere in the string. -/
theorem sFind_none {sub s : List Char} (h : sFind sub s 0 = none) :
    ∀ i, i ≤ s.length → sub.isPrefixOf (s.drop i) = false := by
  intro i hi
  have := @findAux_none _ _ (s.length + 1 - 0) 0 (by simpa [sFind] using h) i (by omega)
  simpa using this

/-- A successful `findAux` is guaranteed by an occurrence within its range. -/
theorem findAux_isSome {sub s : List Char} :
    ∀ {fuel i k : Nat}, k < fuel → sub.isPrefixOf (s.drop (i + k)) = true →
      (findAux sub s i fuel).isSome = true := by
  intro fuel
  induction fuel with
  | zero => intro i k hk; omega
  | succ fuel ih =>
    intro i k hk hp
    rw [findAux]
    by_cases h0 : sub.isPrefixOf (s.drop i) = true
    · rw [if_pos h0]; rfl
    · rw [if_neg h0]
      match k with
      | 0 => rw [Nat.add_zero] at hp; exact absurd hp h0
      | k' + 1 =>
        have harg : i + (k' + 1) = i + 1 + k' := by omega
        rw [harg] at hp
        exact ih (k := k') (by omega) hp

/-- The piece `v` occurs in `u ++ (v ++ w)`, so `sFind` from 0 succeeds. -/
theorem sFind_isSome_append (u v w : List Char) :
    (sFind v (u ++ (v ++ w)) 0).isSome = true := by
  have hp : v.isPrefixOf ((u ++ (v ++ w)).drop (0 + u.length)) = true := by
    rw [Nat.zero_add, List.drop_left]
    exact isPrefixOf_eq_true_iff.mpr (List.prefix_append v w)
  exact findAux_isSome (by simp; omega) hp

/-- Occurrence of `sub` as a contiguous substring of `s`. -/
def Occurs (sub s : List Char) : Prop := ∃ u w, s = u ++ sub ++ w

/-- An occurrence makes `sFind` from 0 succeed. -/
theorem occurs_sFind {sub s : List Char} (h : Occurs sub s) : (sFind sub s 0).isSome = true := by
  rcases h with ⟨u, w, rfl⟩
  rw [List.append_assoc]
  exact sFind_isSome_append u sub w

/-- Occurrence is transitive through substrings. -/
theorem occurs_trans {a m s : List Char} (h1 : Occurs a m) (h2 : Occurs m s) : Occurs a s := by
  rcases h1 with ⟨u1, w1, rfl⟩
  rcases h2 with ⟨u2, w2, rfl⟩
  exact ⟨u2 ++ u1, w1 ++ w2, by simp [List.append_assoc]⟩

/-- Every list of a `joinSep` occurs in the joined result. -/
theorem occurs_joinSep {x : List Char} (sep : List Char) :
    ∀ {xs : List (List Char)}, x ∈ xs → Occurs x (joinSep sep xs) := by
  intro xs
  induction xs with
  | nil => intro h; cases h
  | cons y t ih =>
    intro h
    match t, h with
    | [], h =>
      have : x = y := by cases h with | head => rfl | tail _ h => cases h
      exact ⟨[], [], by simp [joinSep, this]⟩
    | z :: t', h =>
      cases h with
      | head => exact ⟨[], sep ++ joinSep sep (z :: t'), by simp [joinSep, List.append_assoc]⟩
      | tail _ h =>
        have ⟨u, w, hw⟩ := ih h
        exact ⟨y ++ sep ++ u, w, by simp [joinSep, hw, List.append_assoc]⟩

/-- Taking at least the first two of three appended pieces keeps the middle
piece intact. -/
theorem take_append_append (u v w : List Char) (n : Nat) (h : u.length + v.length ≤ n) :
    (u ++ (v ++ w)).take n = u ++ (v ++ w.take (n - u.length - v.length)) := by
  rw [List.take_append_eq_append_take, List.take_append_eq_append_take,
    List.take_of_length_le (by omega), List.take_of_length_le (by omega)]

/-! ## Extraction loop: totality and substring shape (towards C1) -/

/-- The whole string from `startPos` is itself a `take` of a drop. -/
theorem drop_eq_take_sub (html : List Char) (startPos : Nat) :
    html.drop startPos = (html.drop startPos).take (html.length - startPos) := by
  have : (html.drop startPos).length = html.length - startPos := List.length_drop ..
  rw [← this, List.take_length]

/-- A found occurrence of `closeTok` leaves at least 6 characters. -/
theorem sFind_closeTok_bound {html : List Char} {pos nc : Nat}
    (h : sFind closeTok html pos = some nc) : pos ≤ nc ∧ nc + 6 ≤ html.length := by
  have ⟨h1, h2⟩ := sFind_some h
  have hle : closeTok.length ≤ (html.drop nc).length :=
    (isPrefixOf_eq_true_iff.mp h2).length_le
  rw [List.length_drop] at hle
  have : closeTok.length = 6 := by decide
  omega

/-- With enough fuel, the extraction loop returns: its result is the
substring of `html` from `startPos` to some position `e ≤ html.length`. -/
theorem edcLoopF_spec (html : List Char) (startPos : Nat) :
    ∀ fuel depth pos, html.length < fuel + pos →
      ∃ e p, e ≤ html.length ∧
        edcLoopF html startPos fuel depth pos =
          some ((html.drop startPos).take (e - startPos), p) := by
  intro fuel
  induction fuel with
  | zero =>
    intro depth pos hf
    refine ⟨html.length, html.length, Nat.le_refl _, ?_⟩
    rw [edcLoopF, if_pos (Or.inr (by omega))]
    rw [← drop_eq_take_sub]
  | succ fuel ih =>
    intro depth pos hf
    by_cases hg : depth = 0 ∨ html.length ≤ pos
    · refine ⟨html.length, html.length, Nat.le_refl _, ?_⟩
      rw [edcLoopF, if_pos hg, ← drop_eq_take_sub]
    · rw [edcLoopF, if_neg hg]
      push_neg at hg
      rcases hc : sFind closeTok html pos with _ | nc
      · rcases ho : sFind openTok html pos with _ | no
        · exact ⟨html.length, html.length, Nat.le_refl _, by rw [← drop_eq_take_sub]⟩
        · exact ⟨html.length, html.length, Nat.le_refl _, by rw [← drop_eq_take_sub]⟩
      · have ⟨hnc1, hnc2⟩ := sFind_closeTok_bound hc
        rcases ho : sFind openTok html pos with _ | no
        · by_cases hd : depth - 1 = 0
          · exact ⟨nc, nc + 6, by omega, by simp [hd]⟩
          · have := ih (depth - 1) (nc + 6) (by omega)
            rcases this with ⟨e, p, he, hres⟩
            exact ⟨e, p, he, by simp [hd]; exact hres⟩
        · have hno1 : pos ≤ no := (sFind_some ho).1
          by_cases hlt : no < nc
          · have := ih (depth + 1) (no + 4) (by omega)
            rcases this with ⟨e, p, he, hres⟩
            exact ⟨e, p, he, by simp [hlt]; exact hres⟩
          · by_cases hd : depth - 1 = 0
            · exact ⟨nc, nc + 6, by omega, by simp [hlt, hd]⟩
            · have := ih (depth - 1) (nc + 6) (by omega)
              rcases this with ⟨e, p, he, hres⟩
              exact ⟨e, p, he, by simp [hlt, hd]; exact hres⟩

/-- C1: for every input text and start position, `extract_div_content`
returns (never raises — the loop's fuel always suffices, as its cursor
strictly advances), the extracted region is the substring of the input
from the start position to some end position no later than
end-of-document, its length is at most the remaining input length, and
when no closing `</div>` occurs anywhere at or after any position, it
returns everything from the start position to end-of-document. -/
theorem extract_div_content_spec (html : List Char) (startPos : Nat) :
    (∃ e p, e ≤ html.length ∧
       extract_div_content html startPos =
         some ((html.drop startPos).take (e - startPos), p)) ∧
    (∀ r p, extract_div_content html startPos = some (r, p) →
       r.length ≤ html.length - startPos) ∧
    ((∀ i, i ≤ html.length → closeTok.isPrefixOf (html.drop i) = false) →
       extract_div_content html startPos = some (html.drop startPos, html.length)) := by
  refine ⟨?_, ?_, ?_⟩
  · exact edcLoopF_spec html startPos (html.length + 1) 1 startPos (by omega)
  · intro r p hr
    rcases edcLoopF_spec html startPos (html.length + 1) 1 startPos (by omega) with
      ⟨e, p', _, hres⟩
    rw [extract_div_content] at hr
    rw [hr] at hres
    have hr1 : r = (html.drop startPos).take (e - startPos) := by
      have := congrArg (fun o => Option.map Prod.fst o) hres
      simpa using this
    rw [hr1, List.length_take, List.length_drop]
    omega
  · intro hnone
    have hfind : sFind closeTok html startPos = none := by
      rcases hc : sFind closeTok html startPos with _ | nc
      · rfl
      · have ⟨_, h2⟩ := sFind_some hc
        by_cases hlen : nc ≤ html.length
        · rw [hnone nc hlen] at h2; cases h2
        · rw [List.drop_eq_nil_of_le (by omega)] at h2
          have : closeTok.isPrefixOf ([] : List Char) = false := by decide
          rw [this] at h2; cases h2
    rw [extract_div_content, edcLoopF]
    by_cases hg : (1 : Nat) = 0 ∨ html.length ≤ startPos
    · rw [if_pos hg]
    · rw [if_neg hg, hfind]
      rcases sFind openTok html startPos with _ | no <;> rfl

/-- Witness for C1 at a concrete input without any closing tag. -/
theorem extract_div_content_spec_app :
    extract_div_content (toL "ab") 0 = some (toL "ab", 2) := by
  have h := (extract_div_content_spec (toL "ab") 0).2.2 (by decide)
  simpa using h

/-! ## C3: the rebalancing loop does not terminate on `"<div "` -/

/-- C3: the claim asserts that `balance_divs` terminates on every input,
including an opening `<div` followed by whitespace with no later `>`.  It
does not: on `"<div "` the opening-tag branch computes
`end = html.find('>', pos) + 1 = 0`, so the cursor is reset to 0 and the
loop never advances.  In the fuel embedding, the loop returns `none` for
every fuel value (first conjunct), hence so does `balance_divs`. -/
theorem balance_divs_diverges :
    (∀ fuel depth acc, balLoopF (toL "<div ") fuel 0 depth acc = none) ∧
    balance_divs (toL "<div ") = none := by
  have key : ∀ fuel depth acc, balLoopF (toL "<div ") fuel 0 depth acc = none := by
    intro fuel
    induction fuel with
    | zero =>
      intro depth acc
      rw [balLoopF, if_neg (by decide)]
    | succ fuel ih =>
      intro depth acc
      have step := ih (depth + 1) (acc ++ [[]])
      rw [balLoopF, if_neg (by decide)]
      exact step
  exact ⟨key, by rw [balance_divs, key (toL "<div ").length.succ 0 []]; rfl⟩

/-! ## C6 and C7: the index transformer -/

/-- C6: when neither the image-anchor pattern nor the heading-entry
pattern matches anywhere in the index inner content (both `findall`s are
empty), `transform_gallery_index` returns the empty string. -/
theorem transform_gallery_empty (idx_inner : List Char)
    (h1 : reFindAll patThumb idx_inner = [])
    (h2 : reFindAll patEntry idx_inner = []) :
    transform_gallery_index idx_inner = [] := by
  rw [transform_gallery_index, h1, h2]
  rfl

/-- Witness for C6 at a concrete input matching neither pattern. -/
theorem transform_gallery_empty_app : transform_gallery_index (toL "hello") = [] :=
  transform_gallery_empty (toL "hello") (by decide) (by decide)

set_option maxRecDepth 8000 in
/-- C7: on the inner content of the spec scenario, the index transformer
yields a list with exactly one item (one `<li` occurrence), whose link
targets `a.html` with plain text `Title A`, followed within the item by a
summary block containing `Sum A`. -/
theorem transform_gallery_scenario :
    transform_gallery_index
        (toL "<h3><a href=\"a.html\">Title A</a></h3><div class=\"article-summary\">Sum A</div>") =
      toL "<ul class=\"index-list\">\n<li><a href=\"a.html\">Title A</a>\n<div class=\"summary\">Sum A</div></li>\n</ul>" ∧
    countOccur (toL "<li")
        (transform_gallery_index
          (toL "<h3><a href=\"a.html\">Title A</a></h3><div class=\"article-summary\">Sum A</div>")) = 1 ∧
    (sFind (toL "<li><a href=\"a.html\">Title A</a>\n<div class=\"summary\">Sum A</div></li>")
        (transform_gallery_index
          (toL "<h3><a href=\"a.html\">Title A</a></h3><div class=\"article-summary\">Sum A</div>")) 0).isSome = true := by
  refine ⟨by decide, by decide, by decide⟩

/-! ## C8: the content cleaner on the two scenario inputs -/

set_option maxRecDepth 8000 in
/-- C8: cleaning `<div class="callout-container">  </div>` yields the
empty string (the whole container is removed), and cleaning
`<div class="callout-container">X</div>` yields
`<div class="callout-content">X</div>` (renamed wrapper, content kept). -/
theorem clean_content_scenarios :
    clean_content (toL "<div class=\"callout-container\">  </div>") = some [] ∧
    clean_content (toL "<div class=\"callout-container\">X</div>") =
      some (toL "<div class=\"callout-content\">X</div>") := by
  refine ⟨by decide, by decide⟩

/-! ## C2, counterexample part: `balance_divs` is not idempotent -/

/-- C2 counterexample: on `"</di</div>v>"` the rebalancer drops the inner
unmatched `</div>` and thereby splices the surrounding text into a brand
new `</div>` occurrence: the output is `"</div>"`.  Running the rebalancer
again drops it, giving `""` — so running twice differs from running once.
The same output `"</div>"` also refutes the prefix property as stated: it
is a prefix of the output with one closing tag and no opening tag. -/
theorem balance_divs_not_idempotent :
    balance_divs (toL "</di</div>v>") = some (toL "</div>") ∧
    balance_divs (toL "</div>") = some [] ∧
    countOccur (toL "</div>") (toL "</div>") = 1 ∧
    countOccur (toL "<div") (toL "</div>") = 0 := by
  refine ⟨by decide, by decide, by decide, by decide⟩

/-! ## C4, counterexample part: a long title defeats the detector -/

set_option maxRecDepth 4000 in
/-- C4 counterexample: with a 250-character title the `navbar` marker of
the generated page starts at offset 549, beyond the 500-character
detection window, so the page assembler's own output is not classified as
already modernized. -/
theorem make_page_detector_mismatch :
    alreadyModernized (make_page (List.replicate 250 'a') [] [] []) = false := by
  decide

/-! ## C5: gallery and text-index outputs are mutually exclusive -/

/-- Elements of a prefix agree with the longer list. -/
theorem prefix_getElem?_eq {a b : List Char} (h : a <+: b) {i : Nat} (hi : i < a.length) :
    b[i]? = a[i]? := by
  rcases h with ⟨t, rfl⟩
  exact List.getElem?_append_left hi

/-- C5: per invocation, `transform_gallery_index` produces either a gallery
grid or a titled list, never both.  When one or more image-anchor pairs are
recognized the output is the gallery grid (it starts with the grid marker)
and is not a titled list (it does not start with the list marker); when no
image-anchor pair is recognized the output is never a gallery grid. -/
theorem transform_gallery_exclusive (idx_inner : List Char) :
    (reFindAll patThumb idx_inner ≠ [] →
      (toL "<div class=\"gallery-grid\">") <+: transform_gallery_index idx_inner ∧
      ¬ ((toL "<ul class=\"index-list\">") <+: transform_gallery_index idx_inner)) ∧
    (reFindAll patThumb idx_inner = [] →
      ¬ ((toL "<div class=\"gallery-grid\">") <+: transform_gallery_index idx_inner)) := by
  constructor
  · intro h
    have hne : (reFindAll patThumb idx_inner).isEmpty = false := by
      rcases hx : reFindAll patThumb idx_inner with _ | ⟨a, t⟩
      · exact absurd hx h
      · rfl
    have hout : transform_gallery_index idx_inner =
        toL "<div class=\"gallery-grid\">\n" ++
          (joinSep (toL "\n") ((reFindAll patThumb idx_inner).map mkGridItem) ++ toL "\n</div>") := by
      rw [transform_gallery_index, hne]
      simp [List.append_assoc]
    constructor
    · rw [hout]
      have hsplit : toL "<div class=\"gallery-grid\">\n" =
          toL "<div class=\"gallery-grid\">" ++ toL "\n" := by decide
      rw [hsplit, List.append_assoc]
      exact List.prefix_append _ _
    · intro hpre
      have h1 : (transform_gallery_index idx_inner)[1]? = some 'u' := by
        rw [prefix_getElem?_eq hpre (by decide)]
        decide
      rw [hout, List.getElem?_append_left (by decide)] at h1
      have : (toL "<div class=\"gallery-grid\">\n")[1]? = some 'd' := by decide
      rw [this] at h1
      cases h1
  · intro h
    have he : (reFindAll patThumb idx_inner).isEmpty = true := by rw [h]; rfl
    intro hpre
    by_cases h2 : (reFindAll patEntry idx_inner).isEmpty = true
    · have hout : transform_gallery_index idx_inner = [] := by
        simp only [transform_gallery_index, he, h2, if_true]
      rw [hout] at hpre
      rcases hpre with ⟨t, ht⟩
      have := congrArg List.length ht
      have hl : (toL "<div class=\"gallery-grid\">").length = 26 := by decide
      simp [hl] at this
    · have hout : transform_gallery_index idx_inner =
          toL "<ul class=\"index-list\">\n" ++
            (joinSep (toL "\n") ((reFindAll patEntry idx_inner).map mkListItem) ++ toL "\n</ul>") := by
        simp only [transform_gallery_index, he, h2, if_true, if_false, Bool.false_eq_true]
        simp [List.append_assoc]
      have h1 : (transform_gallery_index idx_inner)[1]? = some 'd' := by
        rw [prefix_getElem?_eq hpre (by decide)]
        decide
      rw [hout, List.getElem?_append_left (by decide)] at h1
      have : (toL "<ul class=\"index-list\">\n")[1]? = some 'u' := by decide
      rw [this] at h1
      cases h1

set_option maxRecDepth 4000 in
/-- Witness for C5 at the spec's photo-grid scenario input. -/
theorem transform_gallery_exclusive_app :
    (toL "<div class=\"gallery-grid\">") <+:
      transform_gallery_index (toL "<a href=\"p1.html\"><img src=\"p1.jpg\" alt=\"Pic 1\"/></a>") ∧
    ¬ ((toL "<ul class=\"index-list\">") <+:
      transform_gallery_index (toL "<a href=\"p1.html\"><img src=\"p1.jpg\" alt=\"Pic 1\"/></a>")) :=
  (transform_gallery_exclusive
    (toL "<a href=\"p1.html\"><img src=\"p1.jpg\" alt=\"Pic 1\"/></a>")).1 (by decide)

/-! ## C10: skipped files are not written -/

/-- C10: `process_file` returns `False` (embedded: `none`, no write, file
content unchanged) for every file whose text contains neither `sandvox`
(case-insensitively) nor `main-content`, and for every file whose
main-content extraction is empty. -/
theorem process_file_skips (parts : List (List Char)) (html : List Char) :
    ((sFind (toL "sandvox") (pyLower html) 0).isSome = false →
      (sFind (toL "main-content") html 0).isSome = false →
      process_file parts html = none) ∧
    (extract_main_content html = [] → process_file parts html = none) := by
  constructor
  · intro h1 h2
    rw [process_file, h1, h2]
    rfl
  · intro hmc
    rw [process_file]
    by_cases hcond : (!(sFind (toL "sandvox") (pyLower html) 0).isSome &&
        !(sFind (toL "main-content") html 0).isSome) = true
    · rw [if_pos hcond]
    · rw [if_neg hcond, hmc]
      rfl

/-- Witness for C10 at a concrete non-legacy file. -/
theorem process_file_skips_app : process_file [toL "x.html"] (toL "hello") = none :=
  (process_file_skips [toL "x.html"] (toL "hello")).1 (by decide) (by decide)

/-! ## C4: the detector on the assembler's own output -/

/-- Proof artifact: `tpl1` minus its leading `<!DOCTYPE html>` marker. -/
def tpl1b : List Char :=
  toL "\n<html lang=\"en\">\n<head>\n  <meta charset=\"UTF-8\" />\n  <meta name=\"viewport\" content=\"width=device-width, initial-scale=1.0\" />\n  <title>"

/-- Proof artifact: `tpl3` up to its first `navbar` marker. -/
def tpl3a : List Char := toL "\" />\n</head>\n<body>\n  <nav class=\""

/-- Proof artifact: `tpl3` after its first `navbar` marker. -/
def tpl3b : List Char :=
  toL "\">\n    <div class=\"navbar-inner\">\n      <a class=\"navbar-brand\" href=\""

/-- Template `tpl1` starts with the doctype marker. -/
theorem tpl1_split : tpl1 = toL "<!DOCTYPE html>" ++ tpl1b := by decide

/-- Template `tpl3` contains the `navbar` marker. -/
theorem tpl3_split : tpl3 = tpl3a ++ (toL "navbar" ++ tpl3b) := by decide

/-- A piece that ends within the first `n` characters is found by `sFind`
in the `n`-character window. -/
theorem sFind_take_isSome (u v w : List Char) (n : Nat) (h : u.length + v.length ≤ n) :
    (sFind v ((u ++ (v ++ w)).take n) 0).isSome = true := by
  rw [take_append_append u v w n h]
  exact sFind_isSome_append u v _

set_option maxRecDepth 4000 in
/-- C4, amended: whenever the title and root prefix together are at most
195 characters (so that the `navbar` marker of the shell lies within the
500-character detection window), the page produced by `make_page` is
classified as already modernized by the detector of `main`. -/
theorem make_page_detected_modern (title nav_html content rootPfx : List Char)
    (h : title.length + rootPfx.length ≤ 195) :
    alreadyModernized (make_page title nav_html content rootPfx) = true := by
  have hsh1 : make_page title nav_html content rootPfx =
      [] ++ (toL "<!DOCTYPE html>" ++ (tpl1b ++ (title ++ (tpl2 ++
        ((rootPfx ++ toL "style.css") ++ (tpl3 ++
          ((if rootPfx.isEmpty then toL "./" else rootPfx) ++ (tpl4 ++ (nav_html ++
            (tpl5 ++ (content ++ tpl6))))))))))) := by
    rw [make_page, tpl1_split]
    simp [List.append_assoc]
  have hsh2 : make_page title nav_html content rootPfx =
      (tpl1 ++ (title ++ (tpl2 ++ ((rootPfx ++ toL "style.css") ++ tpl3a)))) ++
        (toL "navbar" ++ (tpl3b ++
          ((if rootPfx.isEmpty then toL "./" else rootPfx) ++ (tpl4 ++ (nav_html ++
            (tpl5 ++ (content ++ tpl6))))))) := by
    rw [make_page, tpl3_split]
    simp [List.append_assoc]
  have hdoc : (sFind (toL "<!DOCTYPE html>")
      ((make_page title nav_html content rootPfx).take 50) 0).isSome = true := by
    rw [hsh1]
    exact sFind_take_isSome _ _ _ _ (by decide)
  have hnav : (sFind (toL "navbar")
      ((make_page title nav_html content rootPfx).take 500) 0).isSome = true := by
    rw [hsh2]
    refine sFind_take_isSome _ _ _ _ ?_
    have l1 : tpl1.length = 151 := by decide
    have l2 : tpl2.length = 105 := by decide
    have l3 : tpl3a.length = 34 := by decide
    have l4 : (toL "style.css").length = 9 := by decide
    have l5 : (toL "navbar").length = 6 := by decide
    simp only [List.length_append, l1, l2, l3, l4, l5]
    omega
  rw [alreadyModernized, hdoc, hnav]
  rfl

/-- Witness for the amended C4 at a concrete short title and empty prefix. -/
theorem make_page_detected_modern_app :
    alreadyModernized (make_page (toL "T") (toL "N") (toL "C") []) = true :=
  make_page_detected_modern (toL "T") (toL "N") (toL "C") [] (by decide)

/-! ## C9: relative root prefix and depth-2 links -/

/-- Proof artifact: `tpl2` minus its trailing `href="`. -/
def tpl2a : List Char :=
  toL " | Mighty Cheese</title>\n  <meta name=\"author\" content=\"Colin Summers\" />\n  <link rel=\"stylesheet\" "

/-- Proof artifact: `tpl3` minus its leading quote. -/
def tpl3r : List Char :=
  toL " />\n</head>\n<body>\n  <nav class=\"navbar\">\n    <div class=\"navbar-inner\">\n      <a class=\"navbar-brand\" href=\""

/-- Template `tpl2` ends with the stylesheet `href="` attribute opener. -/
theorem tpl2_split : tpl2 = tpl2a ++ toL "href=\"" := by decide

/-- Template `tpl3` starts with the quote closing the stylesheet href. -/
theorem tpl3_quote : tpl3 = toL "\"" ++ tpl3r := by decide

/-- Assembling the depth-2 stylesheet link text. -/
theorem css_concat :
    toL "href=\"" ++ ((toL "../../" ++ toL "style.css") ++ toL "\"") =
      toL "href=\"../../style.css\"" := by decide

/-- The nav item line text splits before its `href="`. -/
theorem navline_split : toL "><a href=\"" = toL "><a " ++ toL "href=\"" := by decide

/-- Assembling the depth-2 nav href opener. -/
theorem navhref_concat : toL "href=\"" ++ toL "../../" = toL "href=\"../../" := by decide

/-- C9: the relative-root prefix is `../` repeated once per level of nesting
below the site root (empty at depth zero); for a document at depth 2 (three
path components) it is `../../`, the assembled page's stylesheet link reads
`href="../../style.css"`, and every navigation item's href is prefixed with
`../../`. -/
theorem relative_root_depth (parts : List (List Char)) (title content active : List Char)
    (h : parts.length = 3) :
    relative_root parts = toL "../../" ∧
    (∀ q : List (List Char),
      relative_root q = List.flatten (List.replicate (q.length - 1) (toL "../"))) ∧
    (sFind (toL "href=\"../../style.css\"")
      (make_page title (build_nav (relative_root parts) active) content
        (relative_root parts)) 0).isSome = true ∧
    (∀ it ∈ NAV_ITEMS,
      (sFind (toL "href=\"../../" ++ it.2)
        (make_page title (build_nav (relative_root parts) active) content
          (relative_root parts)) 0).isSome = true) := by
  have hgen : ∀ q : List (List Char),
      relative_root q = List.flatten (List.replicate (q.length - 1) (toL "../")) := by
    intro q
    rw [relative_root]
    by_cases hq : q.length - 1 = 0
    · rw [if_pos hq, hq]
      rfl
    · rw [if_neg hq]
  have hrr : relative_root parts = toL "../../" := by
    rw [hgen, h]
    decide
  rw [hrr]
  refine ⟨rfl, hgen, ?_, ?_⟩
  · apply occurs_sFind
    refine ⟨tpl1 ++ title ++ tpl2a,
      tpl3r ++ ((if (toL "../../").isEmpty then toL "./" else toL "../../") ++
        (tpl4 ++ (build_nav (toL "../../") active ++ (tpl5 ++ (content ++ tpl6))))), ?_⟩
    rw [make_page, tpl2_split, tpl3_quote, ← css_concat]
    simp [List.append_assoc]
  · intro it hit
    apply occurs_sFind
    have h1 : Occurs (toL "href=\"../../" ++ it.2) (navLine (toL "../../") active it) := by
      refine ⟨toL "          <li" ++
        (if it.2 == active then toL " class=\"active\"" else []) ++ toL "><a ",
        toL "\">" ++ it.1 ++ toL "</a></li>", ?_⟩
      rw [navLine, navline_split, ← navhref_concat]
      simp [List.append_assoc]
    have h2 : Occurs (navLine (toL "../../") active it) (build_nav (toL "../../") active) := by
      rw [build_nav]
      exact occurs_joinSep (toL "\n") (List.mem_map_of_mem _ hit)
    have h3 : Occurs (build_nav (toL "../../") active)
        (make_page title (build_nav (toL "../../") active) content (toL "../../")) := by
      refine ⟨tpl1 ++ title ++ tpl2 ++ (toL "../../" ++ toL "style.css") ++ tpl3 ++
        (if (toL "../../").isEmpty then toL "./" else toL "../../") ++ tpl4,
        tpl5 ++ (content ++ tpl6), ?_⟩
      rw [make_page]
      simp [List.append_assoc]
    exact occurs_trans (occurs_trans h1 h2) h3

/-- Witness for C9 at a concrete depth-2 document path. -/
theorem relative_root_depth_app :
    relative_root [toL "pog", toL "sub", toL "x.html"] = toL "../../" :=
  (relative_root_depth [toL "pog", toL "sub", toL "x.html"]
    (toL "t") (toL "c") (toL "index.html") (by decide)).1

/-! ## C2: the rebalancer's emitted pieces (towards the amended claim) -/

/-- An emitted piece that is a copied opening tag (starts with `<div`). -/
def isOpenChunk (c : List Char) : Bool := openTok.isPrefixOf c

/-- An emitted piece that is a copied closing tag (starts with `</div`). -/
def isCloseChunk (c : List Char) : Bool := (toL "</div").isPrefixOf c

/-- Loop-step equation of `balLoopF` when the scan is finished. -/
theorem balLoopF_exit (html : List Char) (fuel pos depth : Nat) (acc : List (List Char))
    (h : html.length ≤ pos) : balLoopF html fuel pos depth acc = some acc := by
  rw [balLoopF.eq_def]
  exact if_pos h

/-- Loop-step equation of `balLoopF` when fuel runs out mid-scan. -/
theorem balLoopF_zero (html : List Char) (pos depth : Nat) (acc : List (List Char))
    (h : pos < html.length) : balLoopF html 0 pos depth acc = none := by
  rw [balLoopF.eq_def]
  exact if_neg (by omega)

/-- Loop-step equation of `balLoopF` for one iteration mid-scan. -/
theorem balLoopF_succ (html : List Char) (fuel pos depth : Nat) (acc : List (List Char))
    (h : pos < html.length) :
    balLoopF html (fuel + 1) pos depth acc =
      if openMatchAt html pos then
        let endp := match sFind (toL ">") html pos with
          | some j => j + 1
          | none => 0
        balLoopF html fuel endp (depth + 1) (acc ++ [(html.drop pos).take (endp - pos)])
      else
        match closeMatchLen html pos with
        | some ln =>
            if 0 < depth then
              balLoopF html fuel (pos + ln) (depth - 1) (acc ++ [(html.drop pos).take ln])
            else balLoopF html fuel (pos + ln) depth acc
        | none => balLoopF html fuel (pos + 1) depth (acc ++ [(html.drop pos).take 1]) := by
  rw [balLoopF.eq_def]
  exact if_neg (by omega)

/-- Characters under a found prefix agree with the needle. -/
theorem getElem_of_prefix_drop {sub l : List Char} {i k : Nat}
    (h : sub.isPrefixOf (l.drop i) = true) (hk : k < sub.length) : l[i + k]? = sub[k]? := by
  rcases isPrefixOf_eq_true_iff.mp h with ⟨t, ht⟩
  rw [← List.getElem?_drop, ← ht, List.getElem?_append_left hk]

/-- A `sFind` hit for `">"` reads back the character `>`. -/
theorem sFind_gt_char {html : List Char} {pos j : Nat}
    (h : sFind (toL ">") html pos = some j) : pos ≤ j ∧ html[j]? = some '>' := by
  have h2 := sFind_some h
  refine ⟨h2.1, ?_⟩
  have h3 := getElem_of_prefix_drop h2.2 (k := 0) (by decide)
  rw [Nat.add_zero] at h3
  rw [h3]
  rfl

/-- A failing `sFind` for `">"` means no `>` anywhere at or after `pos`. -/
theorem no_gt_of_sFind_none {html : List Char} {pos : Nat}
    (h : sFind (toL ">") html pos = none) : ∀ j, pos ≤ j → html[j]? ≠ some '>' := by
  intro j hj hcontra
  have hjlen : j < html.length := by
    by_contra hge
    push_neg at hge
    rw [List.getElem?_eq_none hge] at hcontra
    cases hcontra
  have hpre : (toL ">").isPrefixOf (html.drop j) = true := by
    apply isPrefixOf_eq_true_iff.mpr
    refine ⟨html.drop (j + 1), ?_⟩
    rw [List.drop_eq_getElem_cons hjlen]
    have hc : html[j] = '>' := by
      have := List.getElem?_eq_getElem hjlen
      rw [this] at hcontra
      exact (Option.some.inj hcontra).symm ▸ rfl
    rw [hc]
    rfl
  have hcov := @findAux_none _ _ (html.length + 1 - pos) pos
    (by simpa [sFind] using h) (j - pos) (by omega)
  rw [(by omega : pos + (j - pos) = j)] at hcov
  rw [hcov] at hpre
  cases hpre

/-- The opening-tag branch condition yields the `<div` prefix. -/
theorem openMatchAt_pre {html : List Char} {pos : Nat} (h : openMatchAt html pos = true) :
    openTok.isPrefixOf (html.drop pos) = true := by
  rw [openMatchAt, Bool.and_eq_true] at h
  exact h.1

/-- Under an opening match, the first `>` lies past the four tag letters. -/
theorem open_gt_lower {html : List Char} {pos j : Nat} (hop : openMatchAt html pos = true)
    (hj : sFind (toL ">") html pos = some j) : pos + 4 ≤ j := by
  have hj2 := sFind_gt_char hj
  have hpre := openMatchAt_pre hop
  by_contra hlt
  push_neg at hlt
  have hcase : j - pos = 0 ∨ j - pos = 1 ∨ j - pos = 2 ∨ j - pos = 3 := by omega
  have hchar := getElem_of_prefix_drop hpre (k := j - pos) (by
    rcases hcase with h | h | h | h <;> rw [h] <;> decide)
  rw [(by omega : pos + (j - pos) = j)] at hchar
  rw [hchar] at hj2
  rcases hcase with h | h | h | h <;> rw [h] at hj2 <;> exact absurd hj2.2 (by decide)

/-- A prefix is still a prefix of any sufficiently long `take`. -/
theorem isPrefixOf_take {sub l : List Char} {n : Nat} (h : sub.isPrefixOf l = true)
    (hn : sub.length ≤ n) : sub.isPrefixOf (l.take n) = true := by
  rcases isPrefixOf_eq_true_iff.mp h with ⟨t, ht⟩
  apply isPrefixOf_eq_true_iff.mpr
  refine ⟨t.take (n - sub.length), ?_⟩
  rw [← ht, List.take_append_eq_append_take, List.take_of_length_le hn]

/-- The copied opening-tag piece is an open chunk and not a close chunk. -/
theorem open_chunk_class {html : List Char} {pos j : Nat} (hop : openMatchAt html pos = true)
    (hj : sFind (toL ">") html pos = some j) :
    isOpenChunk ((html.drop pos).take (j + 1 - pos)) = true ∧
    isCloseChunk ((html.drop pos).take (j + 1 - pos)) = false := by
  have h4 := open_gt_lower hop hj
  have hpre := openMatchAt_pre hop
  have hlen : openTok.length ≤ j + 1 - pos := by
    have : openTok.length = 4 := by decide
    omega
  constructor
  · exact isPrefixOf_take hpre hlen
  · by_contra hc
    rw [Bool.not_eq_false] at hc
    have h1 : ((html.drop pos).take (j + 1 - pos))[1]? = (toL "</div")[1]? :=
      prefix_getElem?_eq (isPrefixOf_eq_true_iff.mp hc) (by decide)
    rw [List.getElem?_take] at h1
    rw [if_pos (by omega)] at h1
    have h2 : (html.drop pos)[1]? = openTok[1]? := by
      have := getElem_of_prefix_drop (i := pos) (k := 1) hpre (by decide)
      rw [← List.getElem?_drop] at this
      exact this
    rw [h2] at h1
    exact absurd h1 (by decide)

/-- Facts read off a successful closing-tag match: the matched piece is a
close chunk and not an open chunk, it is at least 6 long, and it ends with
the character `>`. -/
theorem close_chunk_class {html : List Char} {pos ln : Nat}
    (hc : closeMatchLen html pos = some ln) :
    isCloseChunk ((html.drop pos).take ln) = true ∧
    isOpenChunk ((html.drop pos).take ln) = false ∧
    6 ≤ ln ∧ html[pos + (ln - 1)]? = some '>' := by
  rw [closeMatchLen] at hc
  by_cases hpre : (toL "</div").isPrefixOf (html.drop pos) = true
  · rw [if_pos hpre] at hc
    by_cases hch : (html[pos + 5 + countWhile pyIsSpace (html.drop (pos + 5))]? == some '>') = true
    · rw [if_pos hch] at hc
      have hln : ln = 5 + countWhile pyIsSpace (html.drop (pos + 5)) + 1 :=
        (Option.some.inj hc).symm
      refine ⟨?_, ?_, by omega, ?_⟩
      · exact isPrefixOf_take hpre (by
          have : (toL "</div").length = 5 := by decide
          omega)
      · by_contra ho
        rw [Bool.not_eq_false] at ho
        have h1 : ((html.drop pos).take ln)[1]? = openTok[1]? :=
          prefix_getElem?_eq (isPrefixOf_eq_true_iff.mp ho) (by decide)
        rw [List.getElem?_take, if_pos (by omega)] at h1
        have h2 : (html.drop pos)[1]? = (toL "</div")[1]? := by
          have := getElem_of_prefix_drop (i := pos) (k := 1) hpre (by decide)
          rw [← List.getElem?_drop] at this
          exact this
        rw [h2] at h1
        exact absurd h1 (by decide)
      · have := beq_iff_eq.mp hch
        rw [(by omega : pos + (ln - 1) = pos + 5 + countWhile pyIsSpace (html.drop (pos + 5)))]
        exact this
    · rw [if_neg hch] at hc
      cases hc
  · rw [if_neg hpre] at hc
    cases hc

/-- A piece of length at most 1 is neither an open nor a close chunk. -/
theorem char_chunk_class (c : List Char) (hlen : c.length ≤ 1) :
    isOpenChunk c = false ∧ isCloseChunk c = false := by
  constructor
  · by_contra h
    rw [Bool.not_eq_false] at h
    have := (isPrefixOf_eq_true_iff.mp h).length_le
    have h4 : openTok.length = 4 := by decide
    omega
  · by_contra h
    rw [Bool.not_eq_false] at h
    have := (isPrefixOf_eq_true_iff.mp h).length_le
    have h5 : (toL "</div").length = 5 := by decide
    omega

/-- Count of a predicate over a snoc. -/
theorem countP_snoc (p : List Char → Bool) (acc : List (List Char)) (c : List Char) :
    (acc ++ [c]).countP p = acc.countP p + [c].countP p := List.countP_append ..

/-- Extending the per-prefix count inequality by one more piece. -/
theorem prefOK_snoc (acc : List (List Char)) (c : List Char)
    (h : ∀ n, (acc.take n).countP isCloseChunk ≤ (acc.take n).countP isOpenChunk)
    (hc : acc.countP isCloseChunk + [c].countP isCloseChunk ≤
      acc.countP isOpenChunk + [c].countP isOpenChunk) :
    ∀ n, ((acc ++ [c]).take n).countP isCloseChunk ≤
      ((acc ++ [c]).take n).countP isOpenChunk := by
  intro n
  rw [List.take_append_eq_append_take, List.countP_append, List.countP_append]
  rcases Nat.eq_zero_or_pos (n - acc.length) with h0 | hpos
  · rw [h0]
    simpa using h n
  · rw [List.take_of_length_le (by omega), (by omega : n - acc.length = (n - acc.length - 1) + 1)]
    simpa using hc

/-- If an opening `<div[\s>]` match at `p0` has no `>` anywhere at or after
`p0`, the rebalancing loop never terminates from any cursor `≤ p0`: every
path keeps the cursor at or below `p0` (all jumps target characters before
the missing `>`), and at `p0` the cursor is reset to 0.  With fuel, the
loop returns `none` for every fuel value. -/
theorem balLoopF_none_of_unterminated (html : List Char) (p0 : Nat)
    (hgt : ∀ j, p0 ≤ j → html[j]? ≠ some '>')
    (hop : openMatchAt html p0 = true) (hlen : p0 < html.length) :
    ∀ fuel pos depth acc, pos ≤ p0 → balLoopF html fuel pos depth acc = none := by
  intro fuel
  induction fuel with
  | zero =>
    intro pos depth acc hpos
    exact balLoopF_zero html pos depth acc (by omega)
  | succ fuel ih =>
    intro pos depth acc hpos
    rw [balLoopF_succ html fuel pos depth acc (by omega)]
    by_cases hob : openMatchAt html pos = true
    · rw [if_pos hob]
      rcases hj : sFind (toL ">") html pos with _ | j
      · simp only [hj]
        exact ih 0 (depth + 1) _ (by omega)
      · have hj2 := sFind_gt_char hj
        have hjp : j < p0 := by
          by_contra hge
          push_neg at hge
          exact (hgt j hge) hj2.2
        simp only [hj]
        exact ih (j + 1) (depth + 1) _ (by omega)
    · rw [if_neg hob]
      rcases hcm : closeMatchLen html pos with _ | ln
      · have hlt : pos < p0 := by
          rcases Nat.lt_or_ge pos p0 with hlt | hge
          · exact hlt
          · have hpe : pos = p0 := by omega
            rw [hpe] at hob
            exact absurd hop hob
        exact ih (pos + 1) depth _ (by omega)
      · have hcc := close_chunk_class hcm
        have hld : pos + (ln - 1) < p0 := by
          by_contra hge
          push_neg at hge
          exact (hgt _ hge) hcc.2.2.2
        show (if 0 < depth then
            balLoopF html fuel (pos + ln) (depth - 1) (acc ++ [(html.drop pos).take ln])
          else balLoopF html fuel (pos + ln) depth acc) = none
        by_cases hd : 0 < depth
        · rw [if_pos hd]
          exact ih (pos + ln) (depth - 1) _ (by omega)
        · rw [if_neg hd]
          exact ih (pos + ln) depth _ (by omega)

/-- Invariant of the rebalancing loop: starting from an accumulator whose
open/close chunk counts balance the current depth and satisfy the
per-prefix inequality, any completed run yields a chunk list in which
every prefix has at least as many open chunks as close chunks. -/
theorem balLoopF_invariant (html : List Char) :
    ∀ fuel pos depth acc out,
      depth + acc.countP isCloseChunk = acc.countP isOpenChunk →
      (∀ n, (acc.take n).countP isCloseChunk ≤ (acc.take n).countP isOpenChunk) →
      balLoopF html fuel pos depth acc = some out →
      ∀ n, (out.take n).countP isCloseChunk ≤ (out.take n).countP isOpenChunk := by
  intro fuel
  induction fuel with
  | zero =>
    intro pos depth acc out hinv hpre hres
    by_cases hp : html.length ≤ pos
    · rw [balLoopF_exit html 0 pos depth acc hp] at hres
      rcases Option.some.inj hres with rfl
      exact hpre
    · rw [balLoopF_zero html pos depth acc (by omega)] at hres
      cases hres
  | succ fuel ih =>
    intro pos depth acc out hinv hpre hres
    by_cases hp : html.length ≤ pos
    · rw [balLoopF_exit html (fuel + 1) pos depth acc hp] at hres
      rcases Option.some.inj hres with rfl
      exact hpre
    · rw [balLoopF_succ html fuel pos depth acc (by omega)] at hres
      by_cases hob : openMatchAt html pos = true
      · rw [if_pos hob] at hres
        rcases hj : sFind (toL ">") html pos with _ | j
        · simp only [hj] at hres
          have hgt := no_gt_of_sFind_none hj
          rw [balLoopF_none_of_unterminated html pos hgt hob (by omega) fuel 0 (depth + 1) _
            (Nat.zero_le _)] at hres
          cases hres
        · simp only [hj] at hres
          have hcc := open_chunk_class hob hj
          have hone : [(html.drop pos).take (j + 1 - pos)].countP isOpenChunk = 1 := by
            simp [List.countP_cons, hcc.1]
          have hzero : [(html.drop pos).take (j + 1 - pos)].countP isCloseChunk = 0 := by
            simp [List.countP_cons, hcc.2]
          refine ih _ _ _ out ?_ ?_ hres
          · rw [countP_snoc, countP_snoc, hone, hzero]
            omega
          · refine prefOK_snoc acc _ hpre ?_
            rw [hone, hzero]
            omega
      · rw [if_neg hob] at hres
        rcases hcm : closeMatchLen html pos with _ | ln
        · simp only [hcm] at hres
          have hch := char_chunk_class ((html.drop pos).take 1) (by
            rw [List.length_take]
            omega)
          have hone : [(html.drop pos).take 1].countP isOpenChunk = 0 := by
            simp [List.countP_cons, hch.1]
          have hzero : [(html.drop pos).take 1].countP isCloseChunk = 0 := by
            simp [List.countP_cons, hch.2]
          refine ih _ _ _ out ?_ ?_ hres
          · rw [countP_snoc, countP_snoc, hone, hzero]
            omega
          · refine prefOK_snoc acc _ hpre ?_
            rw [hone, hzero]
            omega
        · simp only [hcm] at hres
          have hcc := close_chunk_class hcm
          by_cases hd : 0 < depth
          · rw [if_pos hd] at hres
            have hone : [(html.drop pos).take ln].countP isCloseChunk = 1 := by
              simp [List.countP_cons, hcc.1]
            have hzero : [(html.drop pos).take ln].countP isOpenChunk = 0 := by
              simp [List.countP_cons, hcc.2.1]
            refine ih _ _ _ out ?_ ?_ hres
            · rw [countP_snoc, countP_snoc, hone, hzero]
              omega
            · refine prefOK_snoc acc _ hpre ?_
              rw [hone, hzero]
              omega
          · rw [if_neg hd] at hres
            exact ih _ _ _ out hinv hpre hres

/-- C2, amended: the rebalancer builds its output as a list of emitted
pieces (copied opening tags, kept closing tags, single characters; dropped
closing tags are omitted), and whenever the scan completes, every prefix
of the emitted piece list contains at least as many opening `<div` pieces
as closing `</div` pieces — so no kept closing tag is ever emitted without
more opening tags than closing tags before it.  (The raw-text idempotence
and per-character-prefix count claims of C2 fail: deleting an unmatched
closing tag can splice the surrounding text into a new `</div>` occurrence,
see the counterexample theorem.) -/
theorem balance_divs_emitted_balance (html : List Char) (chunks : List (List Char))
    (h : balLoopF html (html.length + 1) 0 0 [] = some chunks) :
    balance_divs html = some chunks.flatten ∧
    ∀ n, (chunks.take n).countP isCloseChunk ≤ (chunks.take n).countP isOpenChunk := by
  constructor
  · rw [balance_divs, h]
    rfl
  · exact balLoopF_invariant html (html.length + 1) 0 0 [] chunks (by simp) (by simp) h

/-- Witness for the amended C2 at a concrete input with one dropped and one
kept closing tag. -/
theorem balance_divs_emitted_balance_app :
    balance_divs (toL "</div><div>x</div>") =
      some (([toL "<div>", toL "x", toL "</div>"] : List (List Char)).flatten) :=
  (balance_divs_emitted_balance (toL "</div><div>x</div>")
    [toL "<div>", toL "x", toL "</div>"] (by decide)).1
